import Mathlib

/-!
Verification development for the `donuts` repository.

This file gives a shallow embedding, in Lean 4, of the parts of the
repository that the specification talks about:

* `Str` — executable string primitives (split, startsWith, endsWith,
  toLower) with the semantics of the JavaScript string methods the
  sources use, defined by structural recursion on the character list.
* `KBDoc` — the backend `KBDocumentService`
  (`packages/backend/src/services/kb-document-service.ts`): S3-backed
  listing, content-type resolution and deletion of knowledge-base
  documents.  S3 interaction is modelled by passing the bucket state (a
  list of objects in listing order, i.e. lexicographic key order) as an
  explicit argument; a `ListObjectsV2` page is the first `MaxKeys`
  matching objects of that list.
* `KBStore` — the frontend Zustand knowledge-base store
  (`stores/knowledgeBaseStore`): the pure state-updater functions that
  the `set` calls install, made explicit as functions on the store state.
* `MemoryRoute` — the backend `POST /api/memory/search` route: the
  request-validation logic, including models of JavaScript
  `parseInt`/`parseFloat` on the scalar JSON values a request body can
  carry, and of the `in` operator used by `isValidMemoryType` (which
  consults the prototype chain, so inherited `Object.prototype` property
  names pass the check).
* `Sync` — the `@fullstack-agentcore/s3-workspace-sync` package.  Its
  implementation is not part of the repository sources (only its README
  is); the definitions in that namespace are modelled from the
  specification's description of the sync engine and are marked as such.
-/

namespace Str

/-- `p.isPrefixOf s` on character lists (JavaScript `startsWith`). -/
def isPrefixList : List Char → List Char → Bool
  | [], _ => true
  | _ :: _, [] => false
  | p :: ps, c :: cs => p == c && isPrefixList ps cs

/-- Split a character list at every occurrence of `sep` (JavaScript
`split` with a one-character separator: always returns at least one,
possibly empty, piece). -/
def splitOnChar (sep : Char) : List Char → List (List Char)
  | [] => [[]]
  | c :: cs =>
    if c == sep then [] :: splitOnChar sep cs
    else match splitOnChar sep cs with
      | [] => [[c]]
      | w :: ws => (c :: w) :: ws

/-- JavaScript `s.startsWith(pfx)`. -/
def startsWith (pfx s : String) : Bool :=
  isPrefixList pfx.toList s.toList

/-- JavaScript `s.endsWith(sfx)`. -/
def endsWith (sfx s : String) : Bool :=
  isPrefixList sfx.toList.reverse s.toList.reverse

/-- JavaScript `s.split(sep)` for a one-character separator. -/
def splitOn (sep : Char) (s : String) : List String :=
  (splitOnChar sep s.toList).map List.asString

/-- JavaScript `s.toLowerCase()` (the sources apply it to ASCII keys). -/
def toLower (s : String) : String :=
  List.asString (s.toList.map Char.toLower)

end Str

namespace KBDoc

/-- An S3 object as seen through `ListObjectsV2`: its key and size.
A bucket is a list of such objects in listing (lexicographic key) order. -/
structure S3Object where
  key : String
  size : Nat
  deriving Repr, DecidableEq

/-- The extension-keyed MIME lookup table of
`KBDocumentService.getContentTypeFromKey`. -/
def mimeTypes : List (String × String) :=
  [ ("pdf", "application/pdf"),
    ("txt", "text/plain"),
    ("md", "text/markdown"),
    ("doc", "application/msword"),
    ("docx", "application/vnd.openxmlformats-officedocument.wordprocessingml.document"),
    ("xls", "application/vnd.ms-excel"),
    ("xlsx", "application/vnd.openxmlformats-officedocument.spreadsheetml.sheet"),
    ("ppt", "application/vnd.ms-powerpoint"),
    ("pptx", "application/vnd.openxmlformats-officedocument.presentationml.presentation"),
    ("html", "text/html"),
    ("htm", "text/html"),
    ("json", "application/json"),
    ("csv", "text/csv"),
    ("xml", "application/xml") ]

/-- `key.split('.').pop()?.toLowerCase()`: the lowercased segment after the
last dot of the key (the whole key, lowercased, when it contains no dot).
JavaScript `split` always returns a non-empty array, so `pop()` never
yields `undefined`. -/
def extensionOfKey (key : String) : String :=
  Str.toLower ((Str.splitOn '.' key).getLastD "")

/-- `KBDocumentService.getContentTypeFromKey`: look the extension up in
`mimeTypes` (`extension || ''` falls to the default because `''` is not a
table key), defaulting to `application/octet-stream`. -/
def getContentTypeFromKey (key : String) : String :=
  (mimeTypes.lookup (extensionOfKey key)).getD "application/octet-stream"

/-- `true` iff the resolved content type carries the
`; charset=utf-8` suffix the spec prescribes for text-like extensions. -/
def hasCharsetSuffix (s : String) : Bool :=
  Str.endsWith "; charset=utf-8" s

/-- A document record as produced by `KBDocumentService.listDocuments`
(the fields computed from the S3 object; `s3Url`, `uploadedAt`,
`knowledgeBaseId`, `userId` and `status` are derived from constants or
the call context and are omitted). -/
structure KBDocEntry where
  documentId : String
  fileName : String
  contentType : String
  size : Nat
  s3Key : String
  deriving Repr, DecidableEq

/-- One `ListObjectsV2` page: the first `maxKeys` objects of the bucket
whose key starts with `pfx`, in listing order.  The continuation token of
a truncated response is not part of the model because no call site in the
service ever follows it. -/
def listPage (bucket : List S3Object) (pfx : String) (maxKeys : Nat) : List S3Object :=
  (bucket.filter (fun o => Str.startsWith pfx o.key)).take maxKeys

/-- The per-object body of the `listDocuments` loop: skip keys with fewer
than three `/`-separated parts, skip keys ending in `/` (folders), and
otherwise build the document record with `documentId = keyParts[1]`,
`fileName = keyParts[2]`. -/
def parseDoc (o : S3Object) : Option KBDocEntry :=
  let keyParts := Str.splitOn '/' o.key
  if keyParts.length < 3 then none
  else if Str.endsWith "/" o.key then none
  else some { documentId := keyParts.getD 1 ""
            , fileName := keyParts.getD 2 ""
            , contentType := getContentTypeFromKey o.key
            , size := o.size
            , s3Key := o.key }

/-- `KBDocumentService.listDocuments`: a single `ListObjectsV2` request
with `Prefix = "kb-" ++ knowledgeBaseId ++ "/"` and `MaxKeys = 1000`
(no pagination — the continuation token is never requested), followed by
the per-object parsing loop. -/
def listDocuments (bucket : List S3Object) (knowledgeBaseId : String) : List KBDocEntry :=
  (listPage bucket ("kb-" ++ knowledgeBaseId ++ "/") 1000).filterMap parseDoc

/-- `KBDocumentService.deleteDocument`: list with
`Prefix = "kb-" ++ kbId ++ "/" ++ docId ++ "/"` and `MaxKeys = 1`; when the
page is empty throw (the `Document not found` error is re-thrown by the
surrounding catch as `Failed to delete document`); otherwise issue exactly
one `DeleteObjectCommand` for the first listed key.  Returns the new
bucket state together with the list of keys deleted. -/
def deleteDocument (bucket : List S3Object) (kbId docId : String) :
    Except String (List S3Object × List String) :=
  match listPage bucket ("kb-" ++ kbId ++ "/" ++ docId ++ "/") 1 with
  | [] => .error "Failed to delete document"
  | o :: _ => .ok (bucket.filter (fun b => b.key ≠ o.key), [o.key])

/-- Zero-pad a number below 10000 to four digits, so that numeric order
agrees with lexicographic key order (as S3 listing uses). -/
def pad4 (i : Nat) : String :=
  (if i < 10 then "000" else if i < 100 then "00" else if i < 1000 then "0" else "")
    ++ toString i

/-- A bucket holding 1001 one-byte objects `kb-1/0000/f` … `kb-1/1000/f`,
all under the prefix of knowledge base `1`, in lexicographic order. -/
def bigBucket : List S3Object :=
  (List.range 1001).map (fun i => ⟨"kb-1/" ++ pad4 i ++ "/f", 1⟩)

end KBDoc

namespace KBStore

/-- A knowledge base record as held by the frontend store (the fields the
store operations read or write; the remaining metadata fields are never
consulted by any store operation and are omitted). -/
structure KnowledgeBase where
  knowledgeBaseId : String
  name : String
  description : String
  status : String
  syncStatus : Option String
  deriving Repr, DecidableEq

/-- The Zustand store state of `useKnowledgeBaseStore`. -/
structure KBState where
  knowledgeBases : List KnowledgeBase
  selectedKnowledgeBases : List String
  isLoading : Bool
  error : Option String
  deriving Repr, DecidableEq

/-- `createKnowledgeBase` success updater: append the new record. -/
def createKB (newKB : KnowledgeBase) (s : KBState) : KBState :=
  { s with knowledgeBases := s.knowledgeBases ++ [newKB]
         , isLoading := false, error := none }

/-- `updateKnowledgeBase` success updater: replace the record at the
index found by `findIndex` (state unchanged but for flags when absent). -/
def updateKB (id : String) (updated : KnowledgeBase) (s : KBState) : KBState :=
  match s.knowledgeBases.findIdx? (fun kb => kb.knowledgeBaseId == id) with
  | some i => { s with knowledgeBases := s.knowledgeBases.set i updated
                     , isLoading := false, error := none }
  | none => { s with isLoading := false, error := none }

/-- `deleteKnowledgeBase` success updater: filter the record out of
`knowledgeBases` and its id out of `selectedKnowledgeBases`. -/
def deleteKB (id : String) (s : KBState) : KBState :=
  { s with knowledgeBases := s.knowledgeBases.filter (fun kb => kb.knowledgeBaseId ≠ id)
         , selectedKnowledgeBases := s.selectedKnowledgeBases.filter (fun x => x ≠ id)
         , isLoading := false, error := none }

/-- `syncKnowledgeBase` success updater: mark the record `SYNCING`. -/
def syncKB (id : String) (s : KBState) : KBState :=
  { s with knowledgeBases := s.knowledgeBases.map (fun kb =>
            if kb.knowledgeBaseId == id then { kb with syncStatus := some "SYNCING" } else kb)
         , isLoading := false, error := none }

/-- `getSyncStatus` success updater: install the fetched status. -/
def setSyncStatus (id : String) (st : String) (s : KBState) : KBState :=
  { s with knowledgeBases := s.knowledgeBases.map (fun kb =>
            if kb.knowledgeBaseId == id then { kb with syncStatus := some st } else kb) }

/-- `selectKnowledgeBase`: no-op when the id is already selected,
otherwise append it. -/
def selectKB (id : String) (s : KBState) : KBState :=
  if s.selectedKnowledgeBases.contains id then s
  else { s with selectedKnowledgeBases := s.selectedKnowledgeBases ++ [id] }

/-- `deselectKnowledgeBase`: filter the id out. -/
def deselectKB (id : String) (s : KBState) : KBState :=
  { s with selectedKnowledgeBases := s.selectedKnowledgeBases.filter (fun x => x ≠ id) }

/-- `clearSelectedKnowledgeBases`. -/
def clearSelected (s : KBState) : KBState :=
  { s with selectedKnowledgeBases := [] }

/-- `initializeStore` success updater (selection untouched). -/
def initOk (kbs : List KnowledgeBase) (s : KBState) : KBState :=
  { s with knowledgeBases := kbs, isLoading := false, error := none }

/-- `initializeStore` failure updater. -/
def initErr (msg : String) (s : KBState) : KBState :=
  { s with knowledgeBases := [], isLoading := false, error := some msg }

/-- `refreshKnowledgeBases` success updater: install the fresh list and
drop selected ids that no longer name an existing knowledge base. -/
def refreshKB (kbs : List KnowledgeBase) (s : KBState) : KBState :=
  { s with knowledgeBases := kbs
         , selectedKnowledgeBases := s.selectedKnowledgeBases.filter (fun id =>
             kbs.any (fun kb => kb.knowledgeBaseId == id)) }

/-- `clearError`. -/
def clearError (s : KBState) : KBState := { s with error := none }

/-- `clearStore`. -/
def clearStore (_s : KBState) : KBState :=
  { knowledgeBases := [], selectedKnowledgeBases := [], isLoading := false, error := none }

/-- The `set({ isLoading: true, error: null })` prelude every async action
runs, and the error updater of the catch branches. -/
def setFlags (loading : Bool) (err : Option String) (s : KBState) : KBState :=
  { s with isLoading := loading, error := err }

/-- Every state transition the store's actions can install. -/
inductive StoreOp where
  | create (kb : KnowledgeBase)
  | update (id : String) (kb : KnowledgeBase)
  | delete (id : String)
  | sync (id : String)
  | syncStatus (id : String) (st : String)
  | select (id : String)
  | deselect (id : String)
  | clearSelected
  | initOk (kbs : List KnowledgeBase)
  | initErr (msg : String)
  | refresh (kbs : List KnowledgeBase)
  | clearError
  | clearStore
  | setFlags (loading : Bool) (err : Option String)

/-- Apply one store operation to the state. -/
def applyOp : StoreOp → KBState → KBState
  | .create kb => createKB kb
  | .update id kb => updateKB id kb
  | .delete id => deleteKB id
  | .sync id => syncKB id
  | .syncStatus id st => setSyncStatus id st
  | .select id => selectKB id
  | .deselect id => deselectKB id
  | .clearSelected => clearSelected
  | .initOk kbs => initOk kbs
  | .initErr msg => initErr msg
  | .refresh kbs => refreshKB kbs
  | .clearError => clearError
  | .clearStore => clearStore
  | .setFlags l e => setFlags l e

end KBStore

namespace MemoryRoute

/-- A finite JavaScript number value as an exact fraction
(numerator / positive denominator); the route's bounds checks compare
against the integer literals `0`, `1` and `100`, which exact decimals
decide correctly (the rounding of pathological 17-plus-digit decimal
literals to binary floats is not modelled). -/
structure JSRat where
  num : Int
  den : Nat
  deriving Repr, DecidableEq

/-- The rational value of a `JSRat` (for meta-level statements). -/
def JSRat.toRat (v : JSRat) : ℚ := (v.num : ℚ) / (v.den : ℚ)

/-- A JavaScript number as the route's validation sees it: `NaN`,
a signed infinity, or a finite value. -/
inductive JSNum where
  | nan
  | inf (neg : Bool)
  | fin (v : JSRat)
  deriving Repr, DecidableEq

/-- JavaScript `isNaN`. -/
def JSNum.isNaN : JSNum → Bool
  | .nan => true
  | _ => false

/-- JavaScript `x < q` for an integer literal `q` (`NaN` compares false). -/
def JSNum.ltQ : JSNum → Int → Bool
  | .nan, _ => false
  | .inf neg, _ => neg
  | .fin a, q => a.num < q * a.den

/-- JavaScript `x > q` for an integer literal `q` (`NaN` compares false). -/
def JSNum.gtQ : JSNum → Int → Bool
  | .nan, _ => false
  | .inf neg, _ => !neg
  | .fin a, q => q * a.den < a.num

/-- A scalar JSON value, as a field of a parsed `express.json` request
body can carry it.  Array- and object-valued fields are outside the
model (their stringifications never make an otherwise-invalid request
valid, and the claims under check quantify over invalid requests). -/
inductive JSValue where
  | nullv
  | boolv (b : Bool)
  | numv (q : JSRat)
  | strv (s : String)
  deriving Repr, DecidableEq

/-- JavaScript `String(v)` for the non-number scalars (the route
stringifies a field only after its `typeof v === 'number'` test failed,
so the `numv` case is never consulted and is mapped to `""`). -/
def jsToString : JSValue → String
  | .nullv => "null"
  | .boolv true => "true"
  | .boolv false => "false"
  | .strv s => s
  | .numv _ => ""

/-- The whitespace JavaScript number parsing strips. -/
def isSpaceChar (c : Char) : Bool :=
  c == ' ' || c == '\t' || c == '\n' || c == '\r'

/-- Numeric value of a digit string. -/
def digitsVal (ds : List Char) : Nat :=
  ds.foldl (fun a c => a * 10 + (c.toNat - 48)) 0

/-- JavaScript `parseInt(s, 10)`: strip leading whitespace, an optional
sign, then the longest prefix of decimal digits; `NaN` when that prefix
is empty. -/
def jsParseInt (s : String) : JSNum :=
  let cs := s.toList.dropWhile isSpaceChar
  let signed : Bool × List Char :=
    match cs with
    | '-' :: rest => (true, rest)
    | '+' :: rest => (false, rest)
    | _ => (false, cs)
  let ds := signed.2.takeWhile Char.isDigit
  if ds.isEmpty then .nan
  else .fin ⟨if signed.1 then -(digitsVal ds : Int) else (digitsVal ds : Int), 1⟩

/-- JavaScript `parseFloat(s)`: strip leading whitespace and an optional
sign; accept an `Infinity` prefix; otherwise the longest prefix of the
form `digits [. digits] [e|E [sign] digits]` with at least one mantissa
digit (a signless or digitless exponent candidate is not consumed);
`NaN` when there is no mantissa digit. -/
def jsParseFloat (s : String) : JSNum :=
  let cs := s.toList.dropWhile isSpaceChar
  let signed : Bool × List Char :=
    match cs with
    | '-' :: rest => (true, rest)
    | '+' :: rest => (false, rest)
    | _ => (false, cs)
  if Str.isPrefixList "Infinity".toList signed.2 then .inf signed.1
  else
    let ip := signed.2.takeWhile Char.isDigit
    let rest1 := signed.2.dropWhile Char.isDigit
    let fracRest : List Char × List Char :=
      match rest1 with
      | '.' :: r => (r.takeWhile Char.isDigit, r.dropWhile Char.isDigit)
      | _ => ([], rest1)
    let fp := fracRest.1
    if ip.isEmpty && fp.isEmpty then .nan
    else
      let mNum : Nat := digitsVal ip * 10 ^ fp.length + digitsVal fp
      let mDen : Nat := 10 ^ fp.length
      let e : Int :=
        match fracRest.2 with
        | c :: r =>
          if c == 'e' || c == 'E' then
            let esigned : Bool × List Char :=
              match r with
              | '-' :: rr => (true, rr)
              | '+' :: rr => (false, rr)
              | _ => (false, r)
            let eds := esigned.2.takeWhile Char.isDigit
            if eds.isEmpty then 0
            else if esigned.1 then -(digitsVal eds : Int) else (digitsVal eds : Int)
          else 0
        | [] => 0
      let scaled : JSRat :=
        match e with
        | .ofNat k => ⟨(mNum * 10 ^ k : Nat), mDen⟩
        | .negSucc k => ⟨(mNum : Nat), mDen * 10 ^ (k + 1)⟩
      .fin (if signed.1 then ⟨-scaled.num, scaled.den⟩ else scaled)

/-- The route's `MEMORY_STRATEGY_MAP` object literal (own properties). -/
def MEMORY_STRATEGY_MAP : List (String × String) :=
  [ ("preferences", "preference_builtin_cdkGen0001-L84bdDEgeO"),
    ("facts", "semantic_builtin_cdkGen0001-i5KqT8FRLs") ]

/-- The property names every plain object literal inherits from
`Object.prototype`; the JavaScript `in` operator reports them as present. -/
def objectPrototypeProps : List String :=
  [ "constructor", "hasOwnProperty", "isPrototypeOf", "propertyIsEnumerable",
    "toLocaleString", "toString", "valueOf",
    "__defineGetter__", "__defineSetter__", "__lookupGetter__",
    "__lookupSetter__", "__proto__" ]

/-- `isValidMemoryType(type)`, i.e. `type in MEMORY_STRATEGY_MAP`: true
for the two own keys and for every property name inherited from
`Object.prototype` (the `in` operator consults the prototype chain). -/
def isValidMemoryType (t : String) : Bool :=
  MEMORY_STRATEGY_MAP.any (fun kv => kv.1 == t) || objectPrototypeProps.contains t

/-- The body of a `POST /api/memory/search` request: each field either
absent (`none`) or a scalar JSON value. -/
structure SearchBody where
  type : Option JSValue
  query : Option JSValue
  topK : Option JSValue
  relevanceScore : Option JSValue
  deriving Repr, DecidableEq

/-- The arguments a reached `memoryService.retrieveMemoryRecords` call
receives.  `memoryStrategyId` is `MEMORY_STRATEGY_MAP[type]`: `none`
models the non-string value (an inherited `Object.prototype` member)
that the property access yields when `type` is not an own key. -/
structure InvokeArgs where
  userId : String
  memoryStrategyId : Option String
  query : String
  topK : JSNum
  relevanceScore : JSNum
  deriving Repr, DecidableEq

/-- The observable outcome of the route handler: the HTTP status it
responds with, and the memory-service invocation it performed, if any. -/
structure RouteResponse where
  status : Nat
  invoked : Option InvokeArgs
  deriving Repr, DecidableEq

/-- The `router.post('/search')` handler: 401 without a user id; 400 when
`type` is not a non-empty string, when `query` is not a non-empty string,
when `isValidMemoryType` rejects `type`, when `topK` (default `10`) is
`NaN`, below `1` or above `100`, or when `relevanceScore` (default `0.2`)
is `NaN`, below `0` or above `1`; otherwise it invokes the memory
service.  A number-typed field is used as is; any other present field is
stringified and run through `parseInt` / `parseFloat`. -/
def searchHandler (userId : Option String) (body : SearchBody) : RouteResponse :=
  match userId with
  | none => ⟨401, none⟩
  | some uid =>
    match body.type with
    | some (.strv t) =>
      if t == "" then ⟨400, none⟩
      else
        match body.query with
        | some (.strv q) =>
          if q == "" then ⟨400, none⟩
          else if !(isValidMemoryType t) then ⟨400, none⟩
          else
            let topKNum :=
              match body.topK with
              | none => JSNum.fin ⟨10, 1⟩
              | some (.numv x) => JSNum.fin x
              | some v => jsParseInt (jsToString v)
            let rsNum :=
              match body.relevanceScore with
              | none => JSNum.fin ⟨2, 10⟩
              | some (.numv x) => JSNum.fin x
              | some v => jsParseFloat (jsToString v)
            if topKNum.isNaN || topKNum.ltQ 1 || topKNum.gtQ 100 then ⟨400, none⟩
            else if rsNum.isNaN || rsNum.ltQ 0 || rsNum.gtQ 1 then ⟨400, none⟩
            else ⟨200, some ⟨uid, MEMORY_STRATEGY_MAP.lookup t, q, topKNum, rsNum⟩⟩
        | _ => ⟨400, none⟩
    | _ => ⟨400, none⟩

end MemoryRoute

namespace Sync

/-- Modelled from the spec: the `@fullstack-agentcore/s3-workspace-sync`
implementation is not in the repository sources, so its data model is
taken from spec §3.  A `WorkspaceEntry` — one non-ignored local file:
relative path, size and content fingerprint. -/
structure WorkspaceEntry where
  relativePath : String
  size : Nat
  fingerprint : String
  deriving Repr, DecidableEq

/-- Modelled from the spec: a `RemoteEntry` (spec §3) — one object under
the remote scoping key, relative path obtained by stripping that key. -/
structure RemoteEntry where
  relativePath : String
  size : Nat
  fingerprint : String
  contentType : String
  deriving Repr, DecidableEq

/-- Modelled from the spec: the projection both listings share and the
`DiffEngine` (spec §4.5) consumes — relative path, size and fingerprint. -/
structure SEntry where
  relativePath : String
  size : Nat
  fingerprint : String
  deriving Repr, DecidableEq

/-- Projection of a local listing entry to the diff input. -/
def WorkspaceEntry.toS (e : WorkspaceEntry) : SEntry :=
  ⟨e.relativePath, e.size, e.fingerprint⟩

/-- Projection of a remote listing entry to the diff input. -/
def RemoteEntry.toS (e : RemoteEntry) : SEntry :=
  ⟨e.relativePath, e.size, e.fingerprint⟩

/-- Modelled from the spec: `SyncPlan` (spec §3) — the immutable output
of the diff. -/
structure SyncPlan where
  toTransfer : List String
  toDelete : List String
  unchanged : Nat
  deriving Repr, DecidableEq

/-- Modelled from the spec: `SyncResult` (spec §3 and the package
README) — the caller-visible record of one pull or push invocation
(`durationMs` is wall-clock time and is not modelled). -/
structure SyncResult where
  success : Bool
  downloadedFiles : Option Nat := none
  uploadedFiles : Option Nat := none
  deletedFiles : Option Nat := none
  errors : List String := []
  deriving Repr, DecidableEq

/-- Modelled from the spec: the path → fingerprint map a listing induces
(spec §4.5 "build two path→fingerprint maps"). -/
def fpLookup (entries : List SEntry) (p : String) : Option String :=
  (entries.map (fun e => (e.relativePath, e.fingerprint))).lookup p

/-- Modelled from the spec: `DiffEngine.diff` (spec §4.5, the missing
implementation).  `toTransfer` = paths present in `authoritative` whose
fingerprint differs from `mirror`'s or which `mirror` lacks; `toDelete` =
paths present in `mirror` but absent from `authoritative`; `unchanged`
counts exact fingerprint matches.  Only path and fingerprint are
consulted; sizes play no role. -/
def diff (authoritative mirror : List SEntry) : SyncPlan :=
  { toTransfer := authoritative.filterMap (fun e =>
      match fpLookup mirror e.relativePath with
      | none => some e.relativePath
      | some fp => if fp == e.fingerprint then none else some e.relativePath)
  , toDelete := mirror.filterMap (fun e =>
      if (fpLookup authoritative e.relativePath).isSome then none
      else some e.relativePath)
  , unchanged := authoritative.countP (fun e =>
      fpLookup mirror e.relativePath == some e.fingerprint) }

/-- Modelled from the spec: the per-item accumulation of the
`TransferScheduler` (spec §4.6): a completed operation counts, a failed
one records its error. -/
def schedStep (op : String → Except String Unit)
    (acc : Nat × List String) (it : String) : Nat × List String :=
  match op it with
  | .ok _ => (acc.1 + 1, acc.2)
  | .error e => (acc.1, acc.2 ++ [e])

/-- Whether a per-item outcome is a success. -/
def isOk (r : Except String Unit) : Bool :=
  match r with
  | .ok _ => true
  | .error _ => false

/-- Modelled from the spec: the aggregate outcome of the
`TransferScheduler` run (spec §4.6, the missing implementation): each
item's operation either completes or records its error; a failing item
never aborts the others, so the aggregate is the fold of the per-item
outcomes.  Returns (completed count, error list). -/
def runScheduler (items : List String) (op : String → Except String Unit) :
    Nat × List String :=
  items.foldl (schedStep op) (0, [])

/-- Modelled from the spec: `pull()` (spec §4.7, the missing
implementation).  A failed remote listing fails the whole call; otherwise
remote is authoritative: diff, download `toTransfer`, then delete local
files in `toDelete`; per-item failures are folded into the error list and
`success` is the uniform partial-failure contract `errors.isEmpty`
(spec §7 propagation policy and §8 partial-failure property). -/
def pull (remoteListing : Except String (List RemoteEntry))
    (localEntries : List WorkspaceEntry)
    (download removeLocal : String → Except String Unit) :
    Except String SyncResult :=
  match remoteListing with
  | .error e => .error e
  | .ok remote =>
    let plan := diff (remote.map RemoteEntry.toS) (localEntries.map WorkspaceEntry.toS)
    let dl := runScheduler plan.toTransfer download
    let del := runScheduler plan.toDelete removeLocal
    .ok { success := (dl.2 ++ del.2).isEmpty
        , downloadedFiles := some dl.1
        , deletedFiles := some del.1
        , errors := dl.2 ++ del.2 }

/-- Modelled from the spec: upload target-state update — `putObject`
overwrites the object at the path or creates it (spec §6). -/
def upsert (remote : List RemoteEntry) (e : RemoteEntry) : List RemoteEntry :=
  if remote.any (fun r => r.relativePath == e.relativePath) then
    remote.map (fun r => if r.relativePath == e.relativePath then e else r)
  else remote ++ [e]

/-- Modelled from the spec: the items `push()` uploads — the local
entries whose relative path the plan marked for transfer. -/
def pushUploads (localEntries : List WorkspaceEntry) (remote : List RemoteEntry) :
    List WorkspaceEntry :=
  let plan := diff (localEntries.map WorkspaceEntry.toS) (remote.map RemoteEntry.toS)
  localEntries.filter (fun e => plan.toTransfer.contains e.relativePath)

/-- Modelled from the spec: the per-item body of the push transfer phase
(spec §4.6/§4.7): a successful upload upserts the entry into the remote
state and counts a completion; a failed one records its error. -/
def pushStep (resolve : String → String) (upload : String → Except String Unit)
    (acc : List RemoteEntry × Nat × List String) (e : WorkspaceEntry) :
    List RemoteEntry × Nat × List String :=
  match upload e.relativePath with
  | .ok _ =>
    (upsert acc.1 ⟨e.relativePath, e.size, e.fingerprint, resolve e.relativePath⟩,
     acc.2.1 + 1, acc.2.2)
  | .error msg => (acc.1, acc.2.1, acc.2.2 ++ [msg])

/-- Modelled from the spec: `push()` (spec §4.7, the missing
implementation).  A failed local listing fails the whole call; otherwise
local is authoritative: diff, upload `toTransfer` with the content type
from the resolver, and — by design — delete nothing remote: the remote
state changes only by upserts of successfully uploaded entries.  Returns
the new remote state and the aggregated result. -/
def push (localListing : Except String (List WorkspaceEntry))
    (remote : List RemoteEntry) (resolve : String → String)
    (upload : String → Except String Unit) :
    Except String (List RemoteEntry × SyncResult) :=
  match localListing with
  | .error e => .error e
  | .ok localEntries =>
    let out := (pushUploads localEntries remote).foldl (pushStep resolve upload) (remote, 0, [])
    .ok (out.1, { success := out.2.2.isEmpty
                , uploadedFiles := some out.2.1
                , deletedFiles := some 0
                , errors := out.2.2 })

/-- Modelled from the spec: the background-pull handle's state machine
(spec §4.7): `Idle -> Pending -> (Complete | Failed)`. -/
inductive PullState where
  | idle
  | pending
  | complete (r : SyncResult)
  | failed (e : String)
  deriving Repr, DecidableEq

/-- Modelled from the spec: the orchestrator state the background-pull
lifecycle touches — the handle, plus a counter of launched `pull()`s
(i.e. of listing-function invocations, the observable the spec's
background-pull property counts). -/
structure Orchestrator where
  pullState : PullState
  listCalls : Nat
  deriving Repr, DecidableEq

/-- Modelled from the spec: `startBackgroundPull()` (spec §4.7, the
missing implementation): a no-op while a background pull is pending;
from any other state it launches one `pull()` (counter + 1) and moves
the handle to `pending`. -/
def startBackgroundPull (o : Orchestrator) : Orchestrator :=
  match o.pullState with
  | .pending => o
  | _ => { pullState := .pending, listCalls := o.listCalls + 1 }

/-- Modelled from the spec: the `TransferScheduler` pool state (spec
§4.6, §5): items still queued (in submission order), items whose
operations are currently outstanding, and finished items. -/
structure SchedState where
  queued : List String
  active : List String
  done : List String
  deriving Repr, DecidableEq

/-- Modelled from the spec: one scheduling event of the bounded-
concurrency pool (spec §4.6, the missing implementation): `start` moves
the queue head into the active set only while fewer than `c` operations
are outstanding; `finish` retires an active operation (items may finish
in any order). -/
inductive SchedStep (c : Nat) : SchedState → SchedState → Prop
  | start (s : SchedState) (it : String) (rest : List String) :
      s.queued = it :: rest → s.active.length < c →
      SchedStep c s ⟨rest, s.active ++ [it], s.done⟩
  | finish (s : SchedState) (it : String) :
      it ∈ s.active →
      SchedStep c s ⟨s.queued, s.active.erase it, it :: s.done⟩

/-- Modelled from the spec: the pool's initial state for a `run` call —
everything queued in submission order, nothing outstanding. -/
def initState (items : List String) : SchedState := ⟨items, [], []⟩

end Sync

namespace Fixtures

/-- Twenty pending transfer items, in submission order, for exercising
the scheduler model. -/
def items20 : List String := (List.range 20).map (fun i => "item" ++ toString i)

/-- Ten remote entries `f0` … `f9`, none of which exists locally. -/
def remote10 : List Sync.RemoteEntry :=
  (List.range 10).map (fun i => ⟨"f" ++ toString i, 1, "h" ++ toString i, "text/plain"⟩)

/-- Ten local entries `f0` … `f9`, none of which exists remotely. -/
def local10 : List Sync.WorkspaceEntry :=
  (List.range 10).map (fun i => ⟨"f" ++ toString i, 1, "h" ++ toString i⟩)

/-- A per-item transfer operation that always fails on `f5` and succeeds
on every other item. -/
def failOn5 : String → Except String Unit :=
  fun p => if p == "f5" then .error "transfer failed: f5" else .ok ()

/-- A per-item operation that always succeeds. -/
def alwaysOk : String → Except String Unit := fun _ => .ok ()

end Fixtures

set_option maxRecDepth 100000

/-- C6: at most one background pull is ever in flight per orchestrator
instance: `startBackgroundPull` is idempotent, is a no-op while a pull is
pending, and two consecutive calls from a non-pending state launch
exactly one underlying `pull()` (one listing-function invocation). -/
theorem backgroundPull_single_flight (o : Sync.Orchestrator) :
    Sync.startBackgroundPull (Sync.startBackgroundPull o) = Sync.startBackgroundPull o
    ∧ (o.pullState = .pending → Sync.startBackgroundPull o = o)
    ∧ (o.pullState ≠ .pending →
        (Sync.startBackgroundPull (Sync.startBackgroundPull o)).listCalls = o.listCalls + 1) := by
  obtain ⟨st, n⟩ := o
  cases st <;> simp [Sync.startBackgroundPull]

/-- Witness for `backgroundPull_single_flight` at a freshly constructed
orchestrator: two consecutive calls launch exactly one pull. -/
theorem backgroundPull_single_flight_witness :
    (Sync.startBackgroundPull (Sync.startBackgroundPull ⟨.idle, 0⟩)).listCalls = 0 + 1 :=
  (backgroundPull_single_flight ⟨.idle, 0⟩).2.2 (by decide)

/-- C9: the store's selected-knowledge-bases list never acquires
duplicates: every store operation preserves duplicate-freeness of
`selectedKnowledgeBases`, and `selectKnowledgeBase` on an
already-selected id returns the state unchanged. -/
theorem kbStore_selected_nodup (s : KBStore.KBState) :
    (∀ op : KBStore.StoreOp, s.selectedKnowledgeBases.Nodup →
        ((KBStore.applyOp op s).selectedKnowledgeBases).Nodup)
    ∧ (∀ id : String, id ∈ s.selectedKnowledgeBases →
        KBStore.applyOp (.select id) s = s) := by
  constructor
  · intro op hnd
    cases op with
    | create kb => exact hnd
    | update id kb =>
      cases h : s.knowledgeBases.findIdx? (fun x => x.knowledgeBaseId == id) <;>
        simp [KBStore.applyOp, KBStore.updateKB, h, hnd]
    | delete id => exact hnd.filter _
    | sync id => exact hnd
    | syncStatus id st => exact hnd
    | select id =>
      by_cases h : id ∈ s.selectedKnowledgeBases
      · simpa [KBStore.applyOp, KBStore.selectKB, h] using hnd
      · simp [KBStore.applyOp, KBStore.selectKB, h, List.nodup_append, hnd]
    | deselect id => exact hnd.filter _
    | clearSelected => simp [KBStore.applyOp, KBStore.clearSelected]
    | initOk kbs => exact hnd
    | initErr msg => exact hnd
    | refresh kbs => exact hnd.filter _
    | clearError => exact hnd
    | clearStore => simp [KBStore.applyOp, KBStore.clearStore]
    | setFlags l e => exact hnd
  · intro id hmem
    simp [KBStore.applyOp, KBStore.selectKB, hmem]

/-- Witness for `kbStore_selected_nodup` at a concrete one-element
selection: selecting a fresh id keeps the list duplicate-free, and
re-selecting the present id leaves the state unchanged. -/
theorem kbStore_selected_nodup_witness :
    ((KBStore.applyOp (.select "kb-b")
        ⟨[], ["kb-a"], false, none⟩).selectedKnowledgeBases).Nodup
    ∧ KBStore.applyOp (.select "kb-a") ⟨[], ["kb-a"], false, none⟩
        = ⟨[], ["kb-a"], false, none⟩ :=
  ⟨(kbStore_selected_nodup ⟨[], ["kb-a"], false, none⟩).1 _ (by decide),
   (kbStore_selected_nodup ⟨[], ["kb-a"], false, none⟩).2 "kb-a" (by decide)⟩

/-- C10: evaluating the search route at `type = "toString"` (an
`Object.prototype` property name, not an allowed memory type): the
JavaScript `in` operator lets it through `isValidMemoryType`, so the
handler responds 200 and invokes the memory service — with the inherited
non-string member as the strategy id — instead of responding 400 without
a service invocation. -/
theorem memorySearch_prototype_type_bypasses_validation :
    MemoryRoute.searchHandler (some "user-1")
        { type := some (.strv "toString"), query := some (.strv "hello")
        , topK := none, relevanceScore := none }
      = ⟨200, some ⟨"user-1", none, "hello", .fin ⟨10, 1⟩, .fin ⟨2, 10⟩⟩⟩
    ∧ "toString" ∉ ["preferences", "facts"] :=
  ⟨by decide, by decide⟩

/-- C8: `deleteDocument` with more than one object under the document's
`kb-{kb}/{doc}/` key space deletes exactly the first listed key — the
delete list is the singleton of the head of the (lexicographic) listing —
and every other object survives in the bucket; with no object under the
key space it throws instead of deleting anything. -/
theorem deleteDocument_first_listed_only
    (bucket : List KBDoc.S3Object) (kbId docId : String) :
    (∀ o rest,
        bucket.filter
            (fun b => Str.startsWith ("kb-" ++ kbId ++ "/" ++ docId ++ "/") b.key)
          = o :: rest →
        rest ≠ [] →
        KBDoc.deleteDocument bucket kbId docId
            = .ok (bucket.filter (fun b => b.key ≠ o.key), [o.key])
          ∧ ∀ b ∈ bucket, b.key ≠ o.key →
              b ∈ bucket.filter (fun b2 => b2.key ≠ o.key))
    ∧ (bucket.filter
          (fun b => Str.startsWith ("kb-" ++ kbId ++ "/" ++ docId ++ "/") b.key) = [] →
        KBDoc.deleteDocument bucket kbId docId = .error "Failed to delete document") := by
  constructor
  · intro o rest hf _hrest
    constructor
    · simp only [KBDoc.deleteDocument, KBDoc.listPage, hf, List.take_succ_cons, List.take_zero]
    · intro b hb hne
      exact List.mem_filter.mpr ⟨hb, by simpa using hne⟩
  · intro hf
    simp only [KBDoc.deleteDocument, KBDoc.listPage, hf, List.take_nil]

/-- Witness for `deleteDocument_first_listed_only`: a document stored as
two objects loses only the first listed one (a sibling document's object
also survives), and a missing document makes the call throw. -/
theorem deleteDocument_first_listed_only_witness :
    (KBDoc.deleteDocument
        [⟨"kb-1/d1/a.txt", 5⟩, ⟨"kb-1/d1/b.txt", 7⟩, ⟨"kb-1/d2/c.txt", 2⟩] "1" "d1"
      = .ok ([⟨"kb-1/d1/b.txt", 7⟩, ⟨"kb-1/d2/c.txt", 2⟩], ["kb-1/d1/a.txt"]))
    ∧ KBDoc.deleteDocument [⟨"kb-1/d9/z.txt", 5⟩] "1" "d1"
        = .error "Failed to delete document" := by
  refine ⟨?_, ?_⟩
  · have h := (deleteDocument_first_listed_only
      [⟨"kb-1/d1/a.txt", 5⟩, ⟨"kb-1/d1/b.txt", 7⟩, ⟨"kb-1/d2/c.txt", 2⟩] "1" "d1").1
      ⟨"kb-1/d1/a.txt", 5⟩ [⟨"kb-1/d1/b.txt", 7⟩] (by decide) (by decide)
    simpa using h.1
  · exact (deleteDocument_first_listed_only [⟨"kb-1/d9/z.txt", 5⟩] "1" "d1").2 (by decide)

/-- A value an association-list lookup returns is one of the list's
right-hand components. -/
theorem lookup_mem_snd {α β : Type} [BEq α] [LawfulBEq α] (l : List (α × β)) (k : α) (v : β)
    (h : l.lookup k = some v) : v ∈ l.map Prod.snd := by
  rcases List.lookup_eq_some_iff.mp h with ⟨l1, l2, rfl, -⟩
  simp

/-- C3 (amended): `getContentTypeFromKey` returns the table entry keyed
by the lowercased segment after the last dot, `application/octet-stream`
when that segment is not a table key, and never appends a
`; charset=utf-8` suffix to any result. -/
theorem getContentTypeFromKey_table_lookup_no_charset (key : String) :
    (∀ ct, KBDoc.mimeTypes.lookup (KBDoc.extensionOfKey key) = some ct →
        KBDoc.getContentTypeFromKey key = ct)
    ∧ (KBDoc.mimeTypes.lookup (KBDoc.extensionOfKey key) = none →
        KBDoc.getContentTypeFromKey key = "application/octet-stream")
    ∧ KBDoc.hasCharsetSuffix (KBDoc.getContentTypeFromKey key) = false := by
  refine ⟨?_, ?_, ?_⟩
  · intro ct h; simp [KBDoc.getContentTypeFromKey, h]
  · intro h; simp [KBDoc.getContentTypeFromKey, h]
  · have hmem : KBDoc.getContentTypeFromKey key
        ∈ "application/octet-stream" :: KBDoc.mimeTypes.map Prod.snd := by
      cases h : KBDoc.mimeTypes.lookup (KBDoc.extensionOfKey key) with
      | none => simp [KBDoc.getContentTypeFromKey, h]
      | some ct =>
        have := lookup_mem_snd _ _ _ h
        simp [KBDoc.getContentTypeFromKey, h, this]
    have hall : ∀ s ∈ "application/octet-stream" :: KBDoc.mimeTypes.map Prod.snd,
        KBDoc.hasCharsetSuffix s = false := by decide
    exact hall _ hmem

/-- C3 counterexample: `.txt` is a text-like extension by the claim's own
examples, yet the resolver returns plain `text/plain` with no
`; charset=utf-8` suffix. -/
theorem getContentTypeFromKey_txt_lacks_charset :
    KBDoc.getContentTypeFromKey "notes.txt" = "text/plain"
    ∧ KBDoc.hasCharsetSuffix (KBDoc.getContentTypeFromKey "notes.txt") = false :=
  ⟨by decide, by decide⟩

/-- Witness for `getContentTypeFromKey_table_lookup_no_charset` at
concrete keys with a known and an unknown extension. -/
theorem getContentTypeFromKey_witness :
    KBDoc.getContentTypeFromKey "a.md" = "text/markdown"
    ∧ KBDoc.getContentTypeFromKey "a.zzz" = "application/octet-stream"
    ∧ KBDoc.hasCharsetSuffix (KBDoc.getContentTypeFromKey "a.md") = false :=
  ⟨(getContentTypeFromKey_table_lookup_no_charset "a.md").1 _ (by decide),
   (getContentTypeFromKey_table_lookup_no_charset "a.zzz").2.1 (by decide),
   (getContentTypeFromKey_table_lookup_no_charset "a.md").2.2⟩

/-- A parsed document record carries the S3 key of the object it was
parsed from. -/
theorem parseDoc_s3Key {o : KBDoc.S3Object} {d : KBDoc.KBDocEntry}
    (h : KBDoc.parseDoc o = some d) : d.s3Key = o.key := by
  simp only [KBDoc.parseDoc] at h
  split at h
  · exact absurd h (by simp)
  · split at h
    · exact absurd h (by simp)
    · cases h
      rfl

/-- An object with at least three key segments that is not a directory
marker parses to a document record. -/
theorem parseDoc_isSome {o : KBDoc.S3Object}
    (hseg : 3 ≤ (Str.splitOn '/' o.key).length)
    (hnm : Str.endsWith "/" o.key = false) : (KBDoc.parseDoc o).isSome := by
  have h1 : ¬ ((Str.splitOn '/' o.key).length < 3) := by omega
  simp [KBDoc.parseDoc, h1, hnm]

/-- In a list whose elements have pairwise distinct keys, a predicate
that holds for a member and forces its key counts exactly one element. -/
theorem countP_eq_one_of_unique {α : Type} (P : α → Bool) (keyOf : α → String) :
    ∀ (l : List α) (o : α), l.Pairwise (fun a b => keyOf a ≠ keyOf b) → o ∈ l →
      P o = true → (∀ b, P b = true → keyOf b = keyOf o) → l.countP P = 1 := by
  intro l
  induction l with
  | nil => intro o _ hmem; cases hmem
  | cons a t ih =>
    intro o hpw hmem hPo hkey
    rcases List.pairwise_cons.mp hpw with ⟨hha, hpt⟩
    rcases List.mem_cons.mp hmem with rfl | hot
    · have ht0 : t.countP P = 0 :=
        List.countP_eq_zero.mpr (fun b hb hPb => (hha b hb) (hkey b hPb).symm)
      simp [List.countP_cons, hPo, ht0]
    · have hPa : P a = false := by
        cases hpa : P a
        · rfl
        · exact absurd (hkey a hpa) (hha o hot)
      simp only [List.countP_cons, hPa, if_false]
      simpa using ih o hpt hot hPo hkey

/-- C2 (amended): `listDocuments` is complete only within its single
requested page: for every bucket with distinct keys in which at most
1000 objects carry the knowledge base's prefix, every prefixed object
that is not a directory marker and has at least three `/`-separated key
segments appears exactly once in the result. -/
theorem listDocuments_complete_one_page
    (bucket : List KBDoc.S3Object) (kb : String) (o : KBDoc.S3Object)
    (huniq : bucket.Pairwise (fun a b => a.key ≠ b.key))
    (hpage : (bucket.filter (fun b => Str.startsWith ("kb-" ++ kb ++ "/") b.key)).length ≤ 1000)
    (hmem : o ∈ bucket)
    (hpfx : Str.startsWith ("kb-" ++ kb ++ "/") o.key = true)
    (hnm : Str.endsWith "/" o.key = false)
    (hseg : 3 ≤ (Str.splitOn '/' o.key).length) :
    (KBDoc.listDocuments bucket kb).countP (fun d => d.s3Key == o.key) = 1 := by
  unfold KBDoc.listDocuments KBDoc.listPage
  rw [List.take_of_length_le hpage, List.countP_filterMap, List.countP_filter]
  refine countP_eq_one_of_unique _ (fun b => b.key) bucket o huniq hmem ?_ ?_
  · have hs := parseDoc_isSome hseg hnm
    rcases Option.isSome_iff_exists.mp hs with ⟨d, hd⟩
    have hk := parseDoc_s3Key hd
    show (((KBDoc.parseDoc o).map (fun d => d.s3Key == o.key)).getD false
        && Str.startsWith ("kb-" ++ kb ++ "/") o.key) = true
    rw [hd]
    simp [hk, hpfx]
  · intro b hPb
    simp only [Bool.and_eq_true] at hPb
    rcases hPb with ⟨hq, -⟩
    cases hd : KBDoc.parseDoc b with
    | none => rw [hd] at hq; simp at hq
    | some d =>
      rw [hd] at hq
      simp at hq
      show b.key = o.key
      rw [← parseDoc_s3Key hd]
      exact hq

/-- Witness for `listDocuments_complete_one_page` on a concrete
two-object bucket. -/
theorem listDocuments_complete_one_page_witness :
    (KBDoc.listDocuments [⟨"kb-1/d1/a.txt", 5⟩, ⟨"kb-2/d/x.md", 1⟩] "1").countP
        (fun d => d.s3Key == "kb-1/d1/a.txt") = 1 :=
  listDocuments_complete_one_page _ "1" ⟨"kb-1/d1/a.txt", 5⟩
    (by decide) (by decide) (by decide) (by decide) (by decide) (by decide)

/-- C2 counterexample: with 1001 objects under the prefix, the object
`kb-1/1000/f` — prefixed, not a directory marker, three key segments —
is in the bucket yet appears zero times in `listDocuments`' result,
because the single `ListObjectsV2` request returns at most 1000 keys and
the continuation token is never followed. -/
theorem listDocuments_misses_1001st_object :
    (⟨"kb-1/1000/f", 1⟩ : KBDoc.S3Object) ∈ KBDoc.bigBucket
    ∧ Str.startsWith "kb-1/" "kb-1/1000/f" = true
    ∧ Str.endsWith "/" "kb-1/1000/f" = false
    ∧ 3 ≤ (Str.splitOn '/' "kb-1/1000/f").length
    ∧ (KBDoc.listDocuments KBDoc.bigBucket "1").countP
        (fun d => d.s3Key == "kb-1/1000/f") = 0 :=
  ⟨by decide, by decide, by decide, by decide, by decide⟩

/-- Unfolding step of the path → fingerprint map lookup. -/
theorem fpLookup_cons (e : Sync.SEntry) (m : List Sync.SEntry) (p : String) :
    Sync.fpLookup (e :: m) p
      = if p == e.relativePath then some e.fingerprint else Sync.fpLookup m p := by
  simp only [Sync.fpLookup, List.map_cons, List.lookup_cons]
  split <;> rename_i h <;> simp_all

/-- A path is absent from the fingerprint map iff no entry carries it. -/
theorem fpLookup_eq_none_iff (m : List Sync.SEntry) (p : String) :
    Sync.fpLookup m p = none ↔ ∀ e ∈ m, e.relativePath ≠ p := by
  induction m with
  | nil => simp [Sync.fpLookup]
  | cons e t ih =>
    rw [fpLookup_cons]
    by_cases h : p = e.relativePath
    · simp [h]
    · simp only [beq_iff_eq, if_neg h, ih, List.mem_cons]
      constructor
      · rintro ht e2 (rfl | h2)
        · exact fun he => h he.symm
        · exact ht e2 h2
      · intro hall e2 h2
        exact hall e2 (Or.inr h2)

/-- Over a duplicate-free listing, the fingerprint map yields exactly
the fingerprint of the entry that carries the path. -/
theorem fpLookup_eq_some_iff (m : List Sync.SEntry)
    (hm : (m.map Sync.SEntry.relativePath).Nodup) (p fp : String) :
    Sync.fpLookup m p = some fp ↔ ∃ e ∈ m, e.relativePath = p ∧ e.fingerprint = fp := by
  induction m with
  | nil => simp [Sync.fpLookup]
  | cons e t ih =>
    rw [List.map_cons, List.nodup_cons] at hm
    rw [fpLookup_cons]
    by_cases h : p = e.relativePath
    · subst h
      simp only [beq_self_eq_true, if_pos]
      constructor
      · intro heq
        exact ⟨e, List.mem_cons_self e t, rfl, Option.some.inj heq⟩
      · rintro ⟨x, hx, hxp, hxf⟩
        rcases List.mem_cons.mp hx with rfl | hxt
        · rw [hxf]
        · exact absurd (List.mem_map.mpr ⟨x, hxt, hxp⟩) hm.1
    · simp only [beq_iff_eq, if_neg h, ih hm.2]
      constructor
      · rintro ⟨x, hx, hxp, hxf⟩
        exact ⟨x, List.mem_cons_of_mem e hx, hxp, hxf⟩
      · rintro ⟨x, hx, hxp, hxf⟩
        rcases List.mem_cons.mp hx with rfl | hxt
        · exact absurd hxp.symm h
        · exact ⟨x, hxt, hxp, hxf⟩

/-- C4: `diff` marks for transfer exactly the authoritative paths whose
fingerprint no mirror entry matches (absent or different), marks for
deletion exactly the mirror paths absent from the authoritative side,
counts as unchanged exactly the fingerprint-equal paths, and ignores
sizes entirely (any resizing of both inputs leaves the plan intact). -/
theorem diff_characterization (a m : List Sync.SEntry)
    (hm : (m.map Sync.SEntry.relativePath).Nodup) :
    (∀ p, p ∈ (Sync.diff a m).toTransfer ↔
      ∃ e ∈ a, e.relativePath = p ∧
        ∀ e2 ∈ m, e2.relativePath = p → e2.fingerprint ≠ e.fingerprint)
    ∧ (∀ p, p ∈ (Sync.diff a m).toDelete ↔
      (∃ e ∈ m, e.relativePath = p) ∧ ∀ e2 ∈ a, e2.relativePath ≠ p)
    ∧ ((Sync.diff a m).unchanged = a.countP (fun e =>
        decide (∃ e2 ∈ m, e2.relativePath = e.relativePath
          ∧ e2.fingerprint = e.fingerprint)))
    ∧ (∀ szA szB : String → Nat,
        Sync.diff (a.map (fun e => { e with size := szA e.relativePath }))
                  (m.map (fun e => { e with size := szB e.relativePath })) = Sync.diff a m) := by
  refine ⟨?_, ?_, ?_, ?_⟩
  · intro p
    simp only [Sync.diff, List.mem_filterMap]
    constructor
    · rintro ⟨e, he, hf⟩
      refine ⟨e, he, ?_⟩
      cases hl : Sync.fpLookup m e.relativePath with
      | none =>
        simp only [hl] at hf
        have hp := Option.some.inj hf
        refine ⟨hp, ?_⟩
        intro e2 h2 hp2
        have hne := (fpLookup_eq_none_iff m e.relativePath).mp hl e2 h2
        exact absurd (hp2.trans hp.symm) hne
      | some fp =>
        simp only [hl] at hf
        by_cases hfp : fp = e.fingerprint
        · simp [hfp] at hf
        · simp only [beq_iff_eq, if_neg hfp, Option.some.injEq] at hf
          refine ⟨hf, ?_⟩
          intro e2 h2 hp2
          rcases (fpLookup_eq_some_iff m hm e.relativePath fp).mp hl with ⟨x, hx, hxp, hxf⟩
          have hex : e2 = x :=
            List.inj_on_of_nodup_map hm h2 hx (by rw [hp2, hxp, hf])
          rw [hex, hxf]
          exact fun hcon => hfp hcon
    · rintro ⟨e, he, hp, hall⟩
      refine ⟨e, he, ?_⟩
      cases hl : Sync.fpLookup m e.relativePath with
      | none => simp [hl, hp]
      | some fp =>
        have hne : fp ≠ e.fingerprint := by
          rcases (fpLookup_eq_some_iff m hm e.relativePath fp).mp hl with ⟨x, hx, hxp, hxf⟩
          intro hcon
          exact hall x hx (by rw [hxp, hp]) (by rw [hxf, hcon])
        simp [hl, hp, hne]
  · intro p
    simp only [Sync.diff, List.mem_filterMap]
    constructor
    · rintro ⟨e, he, hg⟩
      by_cases hl : (Sync.fpLookup a e.relativePath).isSome
      · simp [hl] at hg
      · simp only [hl, if_false, Bool.false_eq_true, Option.some.injEq] at hg
        have hnone : Sync.fpLookup a e.relativePath = none :=
          Option.not_isSome_iff_eq_none.mp hl
        refine ⟨⟨e, he, hg⟩, ?_⟩
        intro e2 h2
        have := (fpLookup_eq_none_iff a e.relativePath).mp hnone e2 h2
        rw [← hg]
        exact this
    · rintro ⟨⟨e, he, hp⟩, hall⟩
      refine ⟨e, he, ?_⟩
      have hnone : Sync.fpLookup a p = none :=
        (fpLookup_eq_none_iff a p).mpr hall
      simp [hp, hnone]
  · apply List.countP_congr
    intro e _
    simp only [beq_iff_eq, decide_eq_true_eq]
    rw [fpLookup_eq_some_iff m hm]
  · intro szA szB
    simp only [Sync.diff, Sync.fpLookup, List.filterMap_map, List.countP_map, List.map_map]
    rfl

/-- Witness for `diff_characterization` on concrete listings: a changed
path is transferred and a mirror-only path is deleted. -/
theorem diff_characterization_witness :
    "b" ∈ (Sync.diff [⟨"a", 1, "h1"⟩, ⟨"b", 2, "h2"⟩]
        [⟨"a", 9, "h1"⟩, ⟨"c", 3, "h3"⟩]).toTransfer
    ∧ "c" ∈ (Sync.diff [⟨"a", 1, "h1"⟩, ⟨"b", 2, "h2"⟩]
        [⟨"a", 9, "h1"⟩, ⟨"c", 3, "h3"⟩]).toDelete :=
  ⟨((diff_characterization [⟨"a", 1, "h1"⟩, ⟨"b", 2, "h2"⟩]
      [⟨"a", 9, "h1"⟩, ⟨"c", 3, "h3"⟩] (by decide)).1 "b").mpr
      ⟨⟨"b", 2, "h2"⟩, by decide, rfl, by decide⟩,
   ((diff_characterization [⟨"a", 1, "h1"⟩, ⟨"b", 2, "h2"⟩]
      [⟨"a", 9, "h1"⟩, ⟨"c", 3, "h3"⟩] (by decide)).2.1 "c").mpr
      ⟨⟨⟨"c", 3, "h3"⟩, by decide, rfl⟩, by decide⟩⟩

/-- Upserting an entry leaves every remote object at a different path
in place. -/
theorem upsert_preserves {remote : List Sync.RemoteEntry} {o e : Sync.RemoteEntry}
    (hmem : o ∈ remote) (hne : e.relativePath ≠ o.relativePath) :
    o ∈ Sync.upsert remote e := by
  unfold Sync.upsert
  split
  · refine List.mem_map.mpr ⟨o, hmem, ?_⟩
    rw [if_neg ?_]
    simp only [beq_iff_eq]
    exact fun h => hne h.symm
  · exact List.mem_append_left _ hmem

/-- The push transfer fold never drops a remote object whose path no
uploaded item carries. -/
theorem pushFold_preserves (resolve : String → String)
    (upload : String → Except String Unit) (o : Sync.RemoteEntry) :
    ∀ (us : List Sync.WorkspaceEntry) (acc : List Sync.RemoteEntry × Nat × List String),
      o ∈ acc.1 → (∀ e ∈ us, e.relativePath ≠ o.relativePath) →
      o ∈ (us.foldl (Sync.pushStep resolve upload) acc).1 := by
  intro us
  induction us with
  | nil => intro acc h _; exact h
  | cons e t ih =>
    intro acc hacc hall
    rw [List.foldl_cons]
    refine ih _ ?_ (fun x hx => hall x (List.mem_cons_of_mem e hx))
    unfold Sync.pushStep
    split
    · exact upsert_preserves hacc (hall e (List.mem_cons_self e t))
    · exact hacc

/-- C5: `push` never deletes remote objects: every remote object with no
local counterpart survives the call unchanged, and the result's remote
delete count is zero — push only adds or overwrites. -/
theorem push_additive_only (localEntries : List Sync.WorkspaceEntry)
    (remote : List Sync.RemoteEntry) (resolve : String → String)
    (upload : String → Except String Unit)
    (o : Sync.RemoteEntry) (hmem : o ∈ remote)
    (hnolocal : ∀ e ∈ localEntries, e.relativePath ≠ o.relativePath) :
    ∃ st r, Sync.push (.ok localEntries) remote resolve upload = .ok (st, r)
      ∧ o ∈ st ∧ r.deletedFiles = some 0 := by
  refine ⟨_, _, rfl, ?_, rfl⟩
  refine pushFold_preserves resolve upload o _ _ hmem ?_
  intro e he
  exact hnolocal e (List.mem_of_mem_filter he)

/-- Witness for `push_additive_only`: a concrete push of one new local
file leaves the unrelated remote object in place. -/
theorem push_additive_only_witness :
    ∃ st r, Sync.push (.ok [⟨"a.txt", 1, "h1"⟩])
        [⟨"keep.bin", 2, "h2", "application/octet-stream"⟩]
        (fun _ => "application/octet-stream") Fixtures.alwaysOk = .ok (st, r)
      ∧ (⟨"keep.bin", 2, "h2", "application/octet-stream"⟩ : Sync.RemoteEntry) ∈ st
      ∧ r.deletedFiles = some 0 :=
  push_additive_only [⟨"a.txt", 1, "h1"⟩]
    [⟨"keep.bin", 2, "h2", "application/octet-stream"⟩]
    (fun _ => "application/octet-stream") Fixtures.alwaysOk
    ⟨"keep.bin", 2, "h2", "application/octet-stream"⟩ (by decide) (by decide)

/-- A filter and its complement partition a list's length. -/
theorem filter_length_partition {α : Type} (p : α → Bool) (l : List α) :
    (l.filter p).length + (l.filter (fun a => !p a)).length = l.length := by
  induction l with
  | nil => rfl
  | cons a t ih =>
    cases h : p a <;> simp [List.filter_cons, h, ← ih] <;> omega

/-- The scheduler fold counts completed items and accumulates one error
per failed item. -/
theorem schedFold_counts (op : String → Except String Unit) :
    ∀ (items : List String) (acc : Nat × List String),
      (items.foldl (Sync.schedStep op) acc).1
          = acc.1 + (items.filter (fun it => Sync.isOk (op it))).length
      ∧ (items.foldl (Sync.schedStep op) acc).2.length
          = acc.2.length + (items.filter (fun it => !Sync.isOk (op it))).length := by
  intro items
  induction items with
  | nil => intro acc; simp
  | cons it t ih =>
    intro acc
    rw [List.foldl_cons]
    rcases ih (Sync.schedStep op acc it) with ⟨ih1, ih2⟩
    cases h : op it with
    | ok u =>
      refine ⟨?_, ?_⟩
      · rw [ih1]; simp [Sync.schedStep, Sync.isOk, h, List.filter_cons]; omega
      · rw [ih2]; simp [Sync.schedStep, Sync.isOk, h, List.filter_cons]
    | error msg =>
      refine ⟨?_, ?_⟩
      · rw [ih1]; simp [Sync.schedStep, Sync.isOk, h, List.filter_cons]
      · rw [ih2]; simp [Sync.schedStep, Sync.isOk, h, List.filter_cons]; omega

/-- `runScheduler` reports exactly the number of succeeding items and
one error per failing item. -/
theorem runScheduler_counts (items : List String) (op : String → Except String Unit) :
    (Sync.runScheduler items op).1 = (items.filter (fun it => Sync.isOk (op it))).length
    ∧ (Sync.runScheduler items op).2.length
        = (items.filter (fun it => !Sync.isOk (op it))).length := by
  have h := schedFold_counts op items (0, [])
  simpa [Sync.runScheduler] using h

/-- The push transfer fold counts completed uploads and accumulates one
error per failed upload. -/
theorem pushFold_counts (resolve : String → String) (upload : String → Except String Unit) :
    ∀ (us : List Sync.WorkspaceEntry) (acc : List Sync.RemoteEntry × Nat × List String),
      (us.foldl (Sync.pushStep resolve upload) acc).2.1
          = acc.2.1 + (us.filter (fun e => Sync.isOk (upload e.relativePath))).length
      ∧ (us.foldl (Sync.pushStep resolve upload) acc).2.2.length
          = acc.2.2.length + (us.filter (fun e => !Sync.isOk (upload e.relativePath))).length := by
  intro us
  induction us with
  | nil => intro acc; simp
  | cons e t ih =>
    intro acc
    rw [List.foldl_cons]
    rcases ih (Sync.pushStep resolve upload acc e) with ⟨ih1, ih2⟩
    cases h : upload e.relativePath with
    | ok u =>
      refine ⟨?_, ?_⟩
      · rw [ih1]; simp [Sync.pushStep, Sync.isOk, h, List.filter_cons]; omega
      · rw [ih2]; simp [Sync.pushStep, Sync.isOk, h, List.filter_cons]
    | error msg =>
      refine ⟨?_, ?_⟩
      · rw [ih1]; simp [Sync.pushStep, Sync.isOk, h, List.filter_cons]
      · rw [ih2]; simp [Sync.pushStep, Sync.isOk, h, List.filter_cons]; omega

/-- C1: with listing and diff completed and 10 items to transfer of
which exactly one fails, `pull` and `push` both return normally (no
thrown error) with a result counting 9 successes, exactly 1 recorded
error, and `success = false`. -/
theorem partial_failure_containment :
    (∀ (remote : List Sync.RemoteEntry) (localEntries : List Sync.WorkspaceEntry)
        (download removeLocal : String → Except String Unit),
      (Sync.diff (remote.map Sync.RemoteEntry.toS)
          (localEntries.map Sync.WorkspaceEntry.toS)).toTransfer.length = 10 →
      ((Sync.diff (remote.map Sync.RemoteEntry.toS)
          (localEntries.map Sync.WorkspaceEntry.toS)).toTransfer.filter
          (fun p => !Sync.isOk (download p))).length = 1 →
      (∀ p ∈ (Sync.diff (remote.map Sync.RemoteEntry.toS)
          (localEntries.map Sync.WorkspaceEntry.toS)).toDelete,
        removeLocal p = .ok ()) →
      ∃ r, Sync.pull (.ok remote) localEntries download removeLocal = .ok r
        ∧ r.downloadedFiles = some 9 ∧ r.errors.length = 1 ∧ r.success = false)
    ∧ (∀ (localEntries : List Sync.WorkspaceEntry) (remote : List Sync.RemoteEntry)
        (resolve : String → String) (upload : String → Except String Unit),
      (Sync.pushUploads localEntries remote).length = 10 →
      ((Sync.pushUploads localEntries remote).filter
          (fun e => !Sync.isOk (upload e.relativePath))).length = 1 →
      ∃ st r, Sync.push (.ok localEntries) remote resolve upload = .ok (st, r)
        ∧ r.uploadedFiles = some 9 ∧ r.errors.length = 1 ∧ r.success = false) := by
  constructor
  · intro remote localEntries download removeLocal h10 h1 hdel
    refine ⟨_, rfl, ?_, ?_, ?_⟩
    · show some (Sync.runScheduler (Sync.diff (remote.map Sync.RemoteEntry.toS)
        (localEntries.map Sync.WorkspaceEntry.toS)).toTransfer download).1 = some 9
      rw [(runScheduler_counts _ _).1]
      have hpart := filter_length_partition
        (fun p => Sync.isOk (download p))
        (Sync.diff (remote.map Sync.RemoteEntry.toS)
          (localEntries.map Sync.WorkspaceEntry.toS)).toTransfer
      simp only [Option.some.injEq]
      omega
    · show ((Sync.runScheduler _ download).2 ++ (Sync.runScheduler _ removeLocal).2).length = 1
      rw [List.length_append, (runScheduler_counts _ _).2, (runScheduler_counts _ _).2]
      have hnil : ((Sync.diff (remote.map Sync.RemoteEntry.toS)
          (localEntries.map Sync.WorkspaceEntry.toS)).toDelete.filter
          (fun p => !Sync.isOk (removeLocal p))) = [] := by
        rw [List.filter_eq_nil_iff]
        intro p hp
        simp [hdel p hp, Sync.isOk]
      rw [h1, hnil]
      rfl
    · show ((Sync.runScheduler _ download).2 ++ (Sync.runScheduler _ removeLocal).2).isEmpty = false
      have hlen : ((Sync.runScheduler (Sync.diff (remote.map Sync.RemoteEntry.toS)
          (localEntries.map Sync.WorkspaceEntry.toS)).toTransfer download).2).length = 1 := by
        rw [(runScheduler_counts _ _).2, h1]
      rcases hx : (Sync.runScheduler (Sync.diff (remote.map Sync.RemoteEntry.toS)
          (localEntries.map Sync.WorkspaceEntry.toS)).toTransfer download).2 with _ | ⟨x, xs⟩
      · rw [hx] at hlen; simp at hlen
      · rfl
  · intro localEntries remote resolve upload h10 h1
    refine ⟨_, _, rfl, ?_, ?_, ?_⟩
    · show some ((Sync.pushUploads localEntries remote).foldl
        (Sync.pushStep resolve upload) (remote, 0, [])).2.1 = some 9
      rw [(pushFold_counts resolve upload _ _).1]
      have hpart := filter_length_partition
        (fun e => Sync.isOk (upload e.relativePath)) (Sync.pushUploads localEntries remote)
      simp only [Option.some.injEq]
      omega
    · show ((Sync.pushUploads localEntries remote).foldl
        (Sync.pushStep resolve upload) (remote, 0, [])).2.2.length = 1
      rw [(pushFold_counts resolve upload _ _).2, h1]
      rfl
    · show ((Sync.pushUploads localEntries remote).foldl
        (Sync.pushStep resolve upload) (remote, 0, [])).2.2.isEmpty = false
      have hlen : ((Sync.pushUploads localEntries remote).foldl
          (Sync.pushStep resolve upload) (remote, 0, [])).2.2.length = 1 := by
        rw [(pushFold_counts resolve upload _ _).2, h1]
        rfl
      rcases hx : ((Sync.pushUploads localEntries remote).foldl
          (Sync.pushStep resolve upload) (remote, 0, [])).2.2 with _ | ⟨x, xs⟩
      · rw [hx] at hlen; simp at hlen
      · rfl

/-- Witness for `partial_failure_containment`: ten concrete transfer
items with the operation failing exactly on `f5`, for both directions. -/
theorem partial_failure_containment_witness :
    (∃ r, Sync.pull (.ok Fixtures.remote10) [] Fixtures.failOn5 Fixtures.alwaysOk = .ok r
      ∧ r.downloadedFiles = some 9 ∧ r.errors.length = 1 ∧ r.success = false)
    ∧ (∃ st r, Sync.push (.ok Fixtures.local10) [] (fun _ => "application/octet-stream")
          Fixtures.failOn5 = .ok (st, r)
      ∧ r.uploadedFiles = some 9 ∧ r.errors.length = 1 ∧ r.success = false) :=
  ⟨partial_failure_containment.1 Fixtures.remote10 [] Fixtures.failOn5 Fixtures.alwaysOk
      (by decide) (by decide) (fun p _ => rfl),
   partial_failure_containment.2 Fixtures.local10 [] (fun _ => "application/octet-stream")
      Fixtures.failOn5 (by decide) (by decide)⟩

/-- C7: along every execution of the bounded-concurrency pool from the
initial state, at most `c` operations are ever outstanding at once, and
the still-queued items are always a suffix of the submission order (the
pool starts items strictly in submission order).  In particular with
`c = 3` and 20 pending items the peak concurrency never exceeds 3. -/
theorem scheduler_concurrency_bound (items : List String) (c : Nat) (s : Sync.SchedState)
    (h : Relation.ReflTransGen (Sync.SchedStep c) (Sync.initState items) s) :
    s.active.length ≤ c ∧ s.queued.IsSuffix items := by
  induction h with
  | refl => exact ⟨Nat.zero_le c, List.suffix_refl items⟩
  | tail _ hstep ih =>
    cases hstep with
    | start it rest hq hlt =>
      refine ⟨?_, ?_⟩
      · simp only [List.length_append, List.length_singleton]
        omega
      · refine List.IsSuffix.trans ?_ ih.2
        rw [hq]
        exact List.suffix_cons it rest
    | finish it hmem =>
      exact ⟨Nat.le_trans (List.length_erase_le _ _) ih.1, ih.2⟩

/-- Witness for `scheduler_concurrency_bound`: the state reached from 20
queued items with concurrency 3 after starting the first item. -/
theorem scheduler_concurrency_bound_witness :
    ((["item0"] : List String).length ≤ 3)
    ∧ (Fixtures.items20.drop 1).IsSuffix Fixtures.items20 := by
  exact scheduler_concurrency_bound Fixtures.items20 3 _
    (Relation.ReflTransGen.single
      (Sync.SchedStep.start (Sync.initState Fixtures.items20) "item0"
        (Fixtures.items20.drop 1) (by decide) (by decide)))
